import Mathlib

set_option maxHeartbeats 1000000
set_option maxRecDepth 2000

/-!
Shallow embedding of `src/script.py`, a small personal weather-tracking
service: user registration, per-user cities, a periodic forecast refresh
cycle, and a nearest-time forecast query resolver.

Machine-level conventions of the embedding:
  * Times of day are (hour, minute) pairs; `datetime.fromisoformat(ts).time()`
    on a cached hourly timestamp is modelled by storing the time-of-day
    directly in the payload.
  * `datetime.combine(today, t)` is modelled as `today * 86400 + toSec t`
    seconds, for an arbitrary day index `today`.
  * Fallible Python code (uncaught `IndexError` / `KeyError`, transport
    exceptions) is modelled with `Except`.
  * The SQLite tables are modelled as in-memory lists with explicit
    autoincrement counters; `fetchone` on an unordered SELECT is modelled
    as first match in insertion (rowid) order.
-/

/-- A time of day, as produced by `.time()` on a parsed datetime
(hourly data has minute resolution). -/
structure TimeOfDay where
  hour : Nat
  minute : Nat
deriving DecidableEq

/-- Seconds since midnight of a time of day. -/
def toSec (t : TimeOfDay) : Nat := t.hour * 3600 + t.minute * 60

/-- `abs((datetime.combine(today, a) - datetime.combine(today, b)).total_seconds())`
from lines 204-205 of `script.py`, with `today` an arbitrary day index. -/
def timeDiff (today : Nat) (a b : TimeOfDay) : Nat :=
  ((today * 86400 + toSec a : Int) - (today * 86400 + toSec b : Int)).natAbs

/-- Value of a decimal digit character, `none` on a non-digit. -/
def digitVal (c : Char) : Option Nat :=
  if c.isDigit then some (c.toNat - 48) else none

/-- The `%H` directive of `strptime`: greedy alternation
`2[0-3] | [0-1][0-9] | [0-9]`, returning the matched hour and the rest. -/
def matchHour : List Char → Option (Nat × List Char)
  | [] => none
  | [c] => (digitVal c).map (fun d => (d, ([] : List Char)))
  | c1 :: c2 :: rest =>
    match digitVal c1, digitVal c2 with
    | some d1, some d2 =>
      if (d1 = 2 ∧ d2 ≤ 3) ∨ d1 ≤ 1 then some (d1 * 10 + d2, rest)
      else some (d1, c2 :: rest)
    | some d1, none => some (d1, c2 :: rest)
    | none, _ => none

/-- The `%M` directive of `strptime`: greedy alternation
`[0-5][0-9] | [0-9]`. -/
def matchMinute : List Char → Option (Nat × List Char)
  | [] => none
  | [c] => (digitVal c).map (fun d => (d, ([] : List Char)))
  | c1 :: c2 :: rest =>
    match digitVal c1, digitVal c2 with
    | some d1, some d2 =>
      if d1 ≤ 5 then some (d1 * 10 + d2, rest) else some (d1, c2 :: rest)
    | some d1, none => some (d1, c2 :: rest)
    | none, _ => none

/-- `datetime.strptime(time, "%H:%M").time()` (line 194): `%H`, a literal
colon, `%M`, and no unconverted data remaining. -/
def parseHHMM (s : String) : Option TimeOfDay :=
  match matchHour s.toList with
  | none => none
  | some (h, rest) =>
    match rest with
    | ':' :: rest2 =>
      match matchMinute rest2 with
      | some (m, []) => some ⟨h, m⟩
      | _ => none
    | _ => none

/-- A JSON scalar stored in an hourly data array: a number or `null`. -/
inductive Val where
  | null
  | num (n : Int)
deriving DecidableEq

/-- The `"hourly"` object of a cached payload: the timestamp array (absent
when the JSON lacks a `"time"` key) and the named per-field value arrays. -/
structure Hourly where
  time : Option (List TimeOfDay)
  fields : List (String × List Val)
deriving DecidableEq

/-- A cached forecast payload; `hourly = none` models JSON without an
`"hourly"` key. -/
structure Payload where
  hourly : Option Hourly
deriving DecidableEq

/-- `weather_data.get("hourly", dict()).get("time", list())` (line 198). -/
def hourlyTimes (wd : Payload) : List TimeOfDay :=
  match wd.hourly with
  | none => []
  | some h => h.time.getD []

/-- The scan state of lines 199-209 after the first iteration: given the
remaining distances, the next index, and the best (index, distance) so far,
return the final best pair.  Strict `<` keeps the earliest minimum. -/
def bestAux : List Nat → Nat → Nat → Nat → Nat × Nat
  | [], _, bj, bd => (bj, bd)
  | d :: ds, i, bj, bd =>
    if d < bd then bestAux ds (i + 1) i d else bestAux ds (i + 1) bj bd

/-- The nearest-sample scan of lines 199-212: `min_diff` starts at infinity,
so the first element always becomes the initial best; `none` iff the
timestamp list is empty. -/
def closestIndex (today : Nat) (target : TimeOfDay) : List TimeOfDay → Option Nat
  | [] => none
  | t :: ts =>
    some (bestAux (ts.map (fun u => timeDiff today u target)) 1 0
      (timeDiff today t target)).1

/-- A row of the `cities` table. -/
structure City where
  id : Nat
  user_id : Nat
  name : String
  latitude : Int
  longitude : Int
  weather_data : Option Payload
  last_updated : Option Nat
deriving DecidableEq

/-- The two tables of `weather.db`, with their autoincrement counters. -/
structure DB where
  users : List (Nat × String)
  nextUserId : Nat
  cities : List City
  nextCityId : Nat
deriving DecidableEq

/-- Every failure a request can end in: the `HTTPException`s raised by the
handlers, plus uncaught Python exceptions (which surface as a 500). -/
inductive ApiError where
  | duplicateUsername
  | userNotFound
  | cityNotFound
  | noForecastData
  | invalidTimeFormat
  | noMatchingSample
  | upstreamUnavailable
  | pyIndexError
  | pyKeyError
  | transportError
deriving DecidableEq

def exceptEqDec {ε α : Type} [DecidableEq ε] [DecidableEq α] :
    DecidableEq (Except ε α) := fun a b =>
  match a, b with
  | .error e, .error f =>
    if h : e = f then isTrue (congrArg Except.error h)
    else isFalse (fun hc => h (Except.error.inj hc))
  | .ok x, .ok y =>
    if h : x = y then isTrue (congrArg Except.ok h)
    else isFalse (fun hc => h (Except.ok.inj hc))
  | .error _, .ok _ => isFalse (fun hc => Except.noConfusion hc)
  | .ok _, .error _ => isFalse (fun hc => Except.noConfusion hc)

instance {ε α : Type} [DecidableEq ε] [DecidableEq α] : DecidableEq (Except ε α) :=
  exceptEqDec

/-- `register_user` (lines 63-82): INSERT with a UNIQUE constraint on
`username`; an `IntegrityError` becomes `DuplicateUsername`, otherwise the
new autoincrement id is returned. -/
def register_user (db : DB) (username : String) : Except ApiError (Nat × DB) :=
  if db.users.any (fun u => decide (u.2 = username)) then .error .duplicateUsername
  else .ok (db.nextUserId,
    { db with users := db.users ++ [(db.nextUserId, username)],
              nextUserId := db.nextUserId + 1 })

/-- What the upstream provider does on one invocation of the client:
either the transport fails, or a response with some status and body arrives. -/
inductive UpstreamReply where
  | transportFailure
  | response (status : Nat) (body : Payload)
deriving DecidableEq

/-- `fetch_weather` (lines 85-102): returns the parsed body when
`status_code == 200`, `None` on any other status; a transport exception is
not caught and propagates. -/
def fetch_weather (r : UpstreamReply) : Except ApiError (Option Payload) :=
  match r with
  | .transportFailure => .error .transportError
  | .response status body => .ok (if status = 200 then some body else none)

/-- `add_city` (lines 120-143): check the owner exists, then INSERT the city
with NULL `weather_data` and NULL `last_updated`. -/
def add_city (db : DB) (uid : Nat) (name : String) (lat lon : Int) :
    Except ApiError DB :=
  if db.users.any (fun u => decide (u.1 = uid)) then
    .ok { db with
      cities := db.cities ++ [⟨db.nextCityId, uid, name, lat, lon, none, none⟩],
      nextCityId := db.nextCityId + 1 }
  else .error .userNotFound

/-- `SELECT ... FROM cities WHERE user_id = ? AND name = ?` + `fetchone`
(lines 178-180): first matching row. -/
def findCity (cities : List City) (uid : Nat) (name : String) : Option City :=
  cities.find? (fun c => decide (c.user_id = uid ∧ c.name = name))

/-- Python `dict.get(param)` on the hourly object restricted to the
per-field value arrays. -/
def lookupField (fields : List (String × List Val)) (p : String) :
    Option (List Val) :=
  (fields.find? (fun kv => decide (kv.1 = p))).map Prod.snd

/-- `weather_data["hourly"].get(param, [None])[closest_index]` (line 215)
for one field: the default for a missing field is the one-element list
`[None]`, and indexing out of range raises `IndexError`. -/
def projectField (h : Hourly) (idx : Nat) (p : String) : Except ApiError Val :=
  match ((lookupField h.fields p).getD [Val.null]).get? idx with
  | some v => .ok v
  | none => .error .pyIndexError

/-- Python dict insertion: overwrite in place if the key exists (keeping
its position), else append. -/
def pyDictInsert (m : List (String × Val)) (k : String) (v : Val) :
    List (String × Val) :=
  if m.any (fun kv => decide (kv.1 = k)) then
    m.map (fun kv => if kv.1 = k then (k, v) else kv)
  else m ++ [(k, v)]

/-- The dict comprehension of line 215: evaluate fields left to right,
the first exception aborting the whole request. -/
def projectFields (h : Hourly) (idx : Nat) :
    List String → List (String × Val) → Except ApiError (List (String × Val))
  | [], acc => .ok acc
  | p :: ps, acc =>
    match projectField h idx p with
    | .error e => .error e
    | .ok v => projectFields h idx ps (pyDictInsert acc p v)

/-- `get_forecast` (lines 165-217), in the source's evaluation order:
city lookup, payload presence, time parsing, nearest-sample scan, then
field projection (where `weather_data["hourly"]` would raise `KeyError`
were the key absent at that point). -/
def get_forecast (db : DB) (uid : Nat) (city : String) (time : String)
    (parameters : List String) (today : Nat) :
    Except ApiError (List (String × Val)) :=
  match findCity db.cities uid city with
  | none => .error .cityNotFound
  | some c =>
    match c.weather_data with
    | none => .error .noForecastData
    | some wd =>
      match parseHHMM time with
      | none => .error .invalidTimeFormat
      | some target =>
        match closestIndex today target (hourlyTimes wd) with
        | none => .error .noMatchingSample
        | some idx =>
          match wd.hourly with
          | none => .error .pyKeyError
          | some h => projectFields h idx parameters []

/-- `UPDATE cities SET weather_data = ?, last_updated = ? WHERE id = ?`
(lines 235-238). -/
def updateCity (cities : List City) (cid : Nat) (wd : Payload) (now : Nat) :
    List City :=
  cities.map (fun c =>
    if c.id = cid then { c with weather_data := some wd, last_updated := some now }
    else c)

/-- What one `fetch_weather` call does inside the refresh loop (line 233):
the httpx transport raises an exception that `fetch_weather` does not catch
(`raises`), or the call returns a value that is falsy in the loop's
`if weather_data:` test — `None` from a non-200 status, or a 200 reply whose
JSON body is falsy as a Python object, such as the empty dict (`falsy`) — or
a truthy payload (`truthy`).  Truthiness of a real body is not derivable
from the `Payload` abstraction (which keeps only the `"hourly"` key), so the
environment supplies the outcome directly. -/
inductive FetchOutcome where
  | raises
  | falsy
  | truthy (wd : Payload)
deriving DecidableEq

/-- The loop of lines 232-238 over the snapshot of rows, carrying the
uncommitted table state and the count of fetches issued so far.  A raising
fetch escapes the loop at once: the remaining rows are never fetched. -/
def refreshLoop (fetch : Nat → FetchOutcome) (now : Nat) :
    List City → List City → Nat → Except ApiError (List City) × Nat
  | [], acc, k => (.ok acc, k)
  | row :: rows, acc, k =>
    match fetch row.id with
    | .raises => (.error .transportError, k + 1)
    | .falsy => refreshLoop fetch now rows acc (k + 1)
    | .truthy wd => refreshLoop fetch now rows (updateCity acc row.id wd now) (k + 1)

/-- Outcome of one refresh tick: the table state that is actually persisted,
the exception that escaped the tick (if any), and how many fetches were
issued. -/
structure TickResult where
  db : DB
  raised : Option ApiError
  fetches : Nat
deriving DecidableEq

/-- `update_weather_data` (lines 223-240): SELECT all city rows, then loop;
`fetch` gives the upstream outcome for each row (keyed by city id), `now` is
`datetime.now()`.  `conn.commit()` on line 239 runs only when the loop
finishes: an exception escaping mid-loop skips it, so the UPDATEs of that
tick are rolled back and the stored state is unchanged. -/
def update_weather_data (db : DB) (fetch : Nat → FetchOutcome) (now : Nat) :
    TickResult :=
  match refreshLoop fetch now db.cities db.cities 0 with
  | (.ok cities2, k) => ⟨{ db with cities := cities2 }, none, k⟩
  | (.error e, k) => ⟨db, some e, k⟩

/-- The effect of one row of the refresh loop on one city record: an UPDATE
exactly when that row's fetch produced a truthy payload and the ids match. -/
def applyRow (fetch : Nat → FetchOutcome) (now : Nat) (c : City) (row : City) :
    City :=
  match fetch row.id with
  | .truthy wd =>
    if c.id = row.id then { c with weather_data := some wd, last_updated := some now }
    else c
  | _ => c

/-- First-occurrence deduplication, tracking names already seen. -/
def dedupFirstAux (seen : List String) : List String → List String
  | [] => []
  | p :: ps =>
    if p ∈ seen then dedupFirstAux seen ps
    else p :: dedupFirstAux (seen ++ [p]) ps

/-- The distinct names of a list, in first-occurrence order — the key set
a Python dict comprehension produces. -/
def dedupFirst (l : List String) : List String := dedupFirstAux [] l

/-! ### Concrete fixtures used by witnesses and counterexamples -/

/-- A payload with three hourly samples at 08:00, 09:00, 10:00. -/
def samplePayload : Payload :=
  ⟨some ⟨some [⟨8, 0⟩, ⟨9, 0⟩, ⟨10, 0⟩],
    [("temperature", [Val.num 20, Val.num 21, Val.num 22])]⟩⟩

/-- A payload with two hourly samples and a two-value temperature array. -/
def twoSamplePayload : Payload :=
  ⟨some ⟨some [⟨8, 0⟩, ⟨9, 0⟩], [("temperature", [Val.num 20, Val.num 21])]⟩⟩

/-- One user owning one city with `twoSamplePayload` cached. -/
def dbOslo : DB :=
  ⟨[(1, "alice")], 2, [⟨1, 1, "Oslo", 10, 20, some twoSamplePayload, some 0⟩], 2⟩

/-- One user, no cities. -/
def dbNoCity : DB := ⟨[(1, "alice")], 2, [], 1⟩

/-! ### C6 — time distance is same-day, non-wrapping -/

/-- C6 counterexample: the distance between a 23:59 sample and target 00:01
is 86280 seconds, not the 85680 seconds the claim states. -/
theorem time_diff_midnight_cex :
    timeDiff 0 ⟨23, 59⟩ ⟨0, 1⟩ ≠ 85680 ∧ timeDiff 0 ⟨23, 59⟩ ⟨0, 1⟩ = 86280 := by
  decide

/-- C6 (amended): the nearest-time distance is the absolute same-day
time-of-day difference in seconds for any day index, with no wrapping across
midnight: 23:59 against 00:01 gives 86280 seconds, not 120. -/
theorem time_diff_no_wrap :
    ∀ (today : Nat) (a b : TimeOfDay),
      timeDiff today a b = ((toSec a : Int) - (toSec b : Int)).natAbs ∧
      timeDiff today ⟨23, 59⟩ ⟨0, 1⟩ = 86280 ∧
      timeDiff today ⟨23, 59⟩ ⟨0, 1⟩ ≠ 120 := by
  intro today a b
  have key : ∀ x y : TimeOfDay,
      timeDiff today x y = ((toSec x : Int) - (toSec y : Int)).natAbs := by
    intro x y
    unfold timeDiff
    omega
  refine ⟨key a b, ?_, ?_⟩ <;> rw [key ⟨23, 59⟩ ⟨0, 1⟩] <;> decide

/-! ### C4 — forecast client status handling -/

/-- C4 counterexample: a 204 reply (a 2xx status) yields the absence-of-data
result, not the raw body, and a transport failure propagates as an exception
rather than returning absence-of-data. -/
theorem fetch_weather_2xx_cex :
    fetch_weather (.response 204 samplePayload) = .ok none ∧
    fetch_weather (.response 204 samplePayload) ≠ .ok (some samplePayload) ∧
    fetch_weather .transportFailure = .error .transportError := by
  refine ⟨rfl, ?_, rfl⟩
  decide

/-- C4 (amended): the client returns the raw structured response exactly when
the upstream status equals 200; any other status (other 2xx codes included)
yields the absence-of-data result, and a transport failure is not caught —
it propagates as an exception. -/
theorem fetch_weather_status_spec :
    (∀ (s : Nat) (b : Payload),
      fetch_weather (.response s b) = .ok (if s = 200 then some b else none)) ∧
    fetch_weather .transportFailure = .error .transportError :=
  ⟨fun _ _ => rfl, rfl⟩

/-! ### C3 — when InvalidTimeFormat is reached -/

/-- C3 counterexample: with a malformed time string and a city that does not
resolve, the request fails with CityNotFound, not InvalidTimeFormat — the
city lookup runs before time validation. -/
theorem invalid_time_order_cex :
    parseHHMM "25:99" = none ∧
    get_forecast dbNoCity 1 "Oslo" "25:99" ["temperature"] 0 =
      .error .cityNotFound ∧
    get_forecast dbNoCity 1 "Oslo" "25:99" ["temperature"] 0 ≠
      .error .invalidTimeFormat := by
  refine ⟨rfl, by decide, by decide⟩

/-- C3 (amended): a time string not matching HH:MM fails with
InvalidTimeFormat provided the city lookup succeeded and a cached payload is
present; city and payload checks run first and take precedence. -/
theorem invalid_time_format_after_city_checks
    (db : DB) (uid : Nat) (city time : String) (params : List String)
    (today : Nat) (c : City) (wd : Payload)
    (hfind : findCity db.cities uid city = some c)
    (hwd : c.weather_data = some wd)
    (hparse : parseHHMM time = none) :
    get_forecast db uid city time params today = .error .invalidTimeFormat := by
  simp only [get_forecast, hfind, hwd, hparse]

/-- C3 witness: the amended statement at a concrete store and the malformed
time "25:99". -/
theorem invalid_time_format_witness :
    get_forecast dbOslo 1 "Oslo" "25:99" ["temperature"] 0 =
      .error .invalidTimeFormat :=
  invalid_time_format_after_city_checks dbOslo 1 "Oslo" "25:99" ["temperature"] 0
    ⟨1, 1, "Oslo", 10, 20, some twoSamplePayload, some 0⟩ twoSamplePayload
    rfl rfl rfl

/-! ### C2 — missing/short field projection -/

/-- C2: with the winning index 1 (target 09:00 over samples 08:00, 09:00),
requesting the absent field "humidity" makes the whole request fail with an
uncaught IndexError — `[None][1]` is out of range — instead of substituting
the no-value marker; the same request at winning index 0 does return the
marker for the missing field and the real value for the present one. -/
theorem projection_index_error_bug :
    get_forecast dbOslo 1 "Oslo" "09:00" ["temperature", "humidity"] 0 =
      .error .pyIndexError ∧
    get_forecast dbOslo 1 "Oslo" "08:00" ["temperature", "humidity"] 0 =
      .ok [("temperature", Val.num 20), ("humidity", Val.null)] := by
  exact ⟨by decide, by decide⟩

/-! ### C9 — duplicate username registration -/

/-- C9: once RegisterUser(username) has succeeded, a second RegisterUser with
the same username fails with DuplicateUsername; a username not yet registered
succeeds and returns the new autoincrement user id. -/
theorem register_user_spec (db : DB) (u : String) :
    (∀ (id : Nat) (db2 : DB), register_user db u = .ok (id, db2) →
      register_user db2 u = .error .duplicateUsername) ∧
    (u ∉ db.users.map Prod.snd →
      register_user db u = .ok (db.nextUserId,
        { db with users := db.users ++ [(db.nextUserId, u)],
                  nextUserId := db.nextUserId + 1 })) := by
  constructor
  · intro id db2 hok
    unfold register_user at hok
    by_cases h : db.users.any (fun v => decide (v.2 = u)) = true
    · rw [if_pos h] at hok
      exact Except.noConfusion hok
    · rw [if_neg h] at hok
      injection hok with hok2
      have h1 : id = db.nextUserId := (Prod.mk.injEq _ _ _ _ ▸ hok2).1.symm
      have h2 : db2 = { db with users := db.users ++ [(db.nextUserId, u)],
                                nextUserId := db.nextUserId + 1 } :=
        (Prod.mk.injEq _ _ _ _ ▸ hok2).2.symm
      subst h2
      unfold register_user
      rw [if_pos]
      simp [List.any_eq_true]
  · intro hu
    unfold register_user
    rw [if_neg]
    intro hany
    rw [List.any_eq_true] at hany
    obtain ⟨v, hv, hveq⟩ := hany
    rw [decide_eq_true_eq] at hveq
    exact hu (hveq ▸ List.mem_map_of_mem Prod.snd hv)

/-- C9 witness: registering "alice" into an empty store succeeds with id 1,
and registering "alice" again into the resulting store fails with
DuplicateUsername. -/
theorem register_user_witness :
    register_user ⟨[], 1, [], 1⟩ "alice" =
      .ok (1, ⟨[(1, "alice")], 2, [], 1⟩) ∧
    register_user ⟨[(1, "alice")], 2, [], 1⟩ "alice" =
      .error .duplicateUsername := by
  constructor
  · exact (register_user_spec ⟨[], 1, [], 1⟩ "alice").2 (by decide)
  · exact (register_user_spec ⟨[], 1, [], 1⟩ "alice").1 1
      ⟨[(1, "alice")], 2, [], 1⟩ rfl

/-! ### C1 — nearest index: minimum distance, earliest on ties -/

/-- Invariant of the strict less-than scan: starting from a best
(index, distance) pair valid for the prefix of `full` before position `i`,
`bestAux` returns the index of the minimum of `full`, earliest among equals. -/
theorem bestAux_glemma (full : List Nat) :
    ∀ (ds : List Nat) (i bj bd : Nat),
      full.drop i = ds → bj < i → i ≤ full.length → full.getD bj 0 = bd →
      (∀ k, k < i → bd ≤ full.getD k 0) →
      (∀ k, k < bj → bd < full.getD k 0) →
      (bestAux ds i bj bd).1 < full.length ∧
      full.getD (bestAux ds i bj bd).1 0 = (bestAux ds i bj bd).2 ∧
      (∀ k, k < full.length → (bestAux ds i bj bd).2 ≤ full.getD k 0) ∧
      (∀ k, k < (bestAux ds i bj bd).1 → (bestAux ds i bj bd).2 < full.getD k 0) := by
  intro ds
  induction ds with
  | nil =>
    intro i bj bd hdrop hbj hile hgd hmin hearly
    have hlen : full.length ≤ i := List.drop_eq_nil_iff.mp hdrop
    have hieq : i = full.length := le_antisymm hile hlen
    subst hieq
    exact ⟨hbj, hgd, hmin, hearly⟩
  | cons d ds ih =>
    intro i bj bd hdrop hbj hile hgd hmin hearly
    have hilt : i < full.length := by
      by_contra hcon
      push_neg at hcon
      rw [List.drop_eq_nil_iff.mpr hcon] at hdrop
      exact List.noConfusion hdrop
    have hgetDi : full.getD i 0 = d := by
      rw [List.getD_eq_getElem?_getD]
      rw [← List.head?_drop, hdrop]
      rfl
    have hdrop2 : full.drop (i + 1) = ds := by
      rw [← List.drop_drop 1 i full, hdrop]
      rfl
    simp only [bestAux]
    by_cases hlt : d < bd
    · rw [if_pos hlt]
      refine ih (i + 1) i d hdrop2 (Nat.lt_succ_self i) hilt hgetDi ?_ ?_
      · intro k hk
        rcases Nat.lt_succ_iff_lt_or_eq.mp hk with hk2 | hk2
        · exact le_of_lt (lt_of_lt_of_le hlt (hmin k hk2))
        · subst hk2
          rw [hgetDi]
      · intro k hk
        exact lt_of_lt_of_le hlt (hmin k hk)
    · rw [if_neg hlt]
      refine ih (i + 1) bj bd hdrop2 (hbj.trans (Nat.lt_succ_self i)) hilt hgd ?_ hearly
      intro k hk
      rcases Nat.lt_succ_iff_lt_or_eq.mp hk with hk2 | hk2
      · exact hmin k hk2
      · subst hk2
        rw [hgetDi]
        exact Nat.le_of_not_lt hlt

/-- C1: on a non-empty timestamp list the scan picks an index whose
time-of-day distance to the target is minimal, and on ties the lowest such
index. -/
theorem closestIndex_min_earliest (today : Nat) (target : TimeOfDay)
    (times : List TimeOfDay) (hne : times ≠ []) :
    ∃ (j : Nat) (hj : j < times.length),
      closestIndex today target times = some j ∧
      (∀ (i : Nat) (hi : i < times.length),
        timeDiff today (times.get ⟨j, hj⟩) target ≤
          timeDiff today (times.get ⟨i, hi⟩) target) ∧
      (∀ (i : Nat) (hi : i < times.length),
        timeDiff today (times.get ⟨i, hi⟩) target =
          timeDiff today (times.get ⟨j, hj⟩) target → j ≤ i) := by
  obtain ⟨t, ts, rfl⟩ : ∃ t ts, times = t :: ts := by
    cases times with
    | nil => exact absurd rfl hne
    | cons t ts => exact ⟨t, ts, rfl⟩
  have hlen : ((t :: ts).map (fun u => timeDiff today u target)).length
      = (t :: ts).length := by simp
  have hgetD : ∀ (i : Nat) (hi : i < (t :: ts).length),
      ((t :: ts).map (fun u => timeDiff today u target)).getD i 0 =
        timeDiff today ((t :: ts).get ⟨i, hi⟩) target := by
    intro i hi
    rw [List.getD_eq_getElem _ _ (by simpa using hi), List.getElem_map,
      List.get_eq_getElem]
  have h := bestAux_glemma ((t :: ts).map (fun u => timeDiff today u target))
    (ts.map (fun u => timeDiff today u target)) 1 0 (timeDiff today t target)
    (by simp) Nat.zero_lt_one (by simp) (hgetD 0 (by simp)) ?_ ?_
  · obtain ⟨h1, h2, h3, h4⟩ := h
    have hjlt : (bestAux (ts.map (fun u => timeDiff today u target)) 1 0
        (timeDiff today t target)).1 < (t :: ts).length := hlen ▸ h1
    refine ⟨_, hjlt, rfl, ?_, ?_⟩
    · intro i hi
      have hmin := h3 i (hlen ▸ hi)
      rw [hgetD i hi] at hmin
      have hj2 := h2
      rw [hgetD _ hjlt] at hj2
      rw [← hj2] at hmin
      exact hmin
    · intro i hi heq
      by_contra hcon
      push_neg at hcon
      have hlt := h4 i hcon
      rw [hgetD i hi] at hlt
      have hj2 := h2
      rw [hgetD _ hjlt] at hj2
      rw [← hj2] at hlt
      rw [heq] at hlt
      exact lt_irrefl _ hlt
  · intro k hk
    have hk0 : k = 0 := Nat.lt_one_iff.mp hk
    subst hk0
    rw [hgetD 0 (by simp)]
    exact Nat.le_refl _
  · intro k hk
    exact absurd hk (Nat.not_lt_zero k)

/-- The spec's example timestamps 08:00, 09:00, 10:00. -/
def exTimes : List TimeOfDay := [⟨8, 0⟩, ⟨9, 0⟩, ⟨10, 0⟩]

/-- C1 witness: for timestamps 08:00/09:00/10:00 and target "08:40" the scan
selects index 1, and the minimality-with-earliest-tie property holds there. -/
theorem closestIndex_example_witness :
    parseHHMM "08:40" = some ⟨8, 40⟩ ∧
    closestIndex 0 ⟨8, 40⟩ exTimes = some 1 ∧
    (∃ (j : Nat) (hj : j < exTimes.length),
      closestIndex 0 ⟨8, 40⟩ exTimes = some j ∧
      (∀ (i : Nat) (hi : i < exTimes.length),
        timeDiff 0 (exTimes.get ⟨j, hj⟩) ⟨8, 40⟩ ≤
          timeDiff 0 (exTimes.get ⟨i, hi⟩) ⟨8, 40⟩) ∧
      (∀ (i : Nat) (hi : i < exTimes.length),
        timeDiff 0 (exTimes.get ⟨i, hi⟩) ⟨8, 40⟩ =
          timeDiff 0 (exTimes.get ⟨j, hj⟩) ⟨8, 40⟩ → j ≤ i)) :=
  ⟨by decide, by decide, closestIndex_min_earliest 0 ⟨8, 40⟩ exTimes (by decide)⟩

/-! ### C7 — NoMatchingSample iff empty timestamp sequence -/
lemma projectField_error_shape (h : Hourly) (idx : Nat) (p : String) (e : ApiError)
    (he : projectField h idx p = .error e) : e = .pyIndexError := by
  unfold projectField at he
  cases hg : ((lookupField h.fields p).getD [Val.null]).get? idx with
  | some v =>
    rw [hg] at he
    exact Except.noConfusion he
  | none =>
    rw [hg] at he
    exact (Except.error.inj he).symm

lemma projectFields_error_shape (h : Hourly) (idx : Nat) :
    ∀ (ps : List String) (acc : List (String × Val)) (e : ApiError),
      projectFields h idx ps acc = .error e → e = .pyIndexError := by
  intro ps
  induction ps with
  | nil =>
    intro acc e he
    exact Except.noConfusion he
  | cons p ps ih =>
    intro acc e he
    simp only [projectFields] at he
    cases hp : projectField h idx p with
    | error e2 =>
      rw [hp] at he
      have h1 : e2 = e := Except.error.inj he
      subst h1
      exact projectField_error_shape h idx p e2 hp
    | ok v =>
      rw [hp] at he
      exact ih _ _ he

/-- C7: with the city found, a payload present and a valid time, the request
fails with NoMatchingSample exactly when the payload's hourly timestamp
sequence is empty (which includes a payload with no hourly object at all). -/
theorem no_matching_sample_iff_empty_times
    (db : DB) (uid : Nat) (city time : String) (params : List String)
    (today : Nat) (c : City) (wd : Payload) (target : TimeOfDay)
    (hfind : findCity db.cities uid city = some c)
    (hwd : c.weather_data = some wd)
    (hparse : parseHHMM time = some target) :
    (get_forecast db uid city time params today = .error .noMatchingSample) ↔
      hourlyTimes wd = [] := by
  simp only [get_forecast, hfind, hwd, hparse]
  cases hts : hourlyTimes wd with
  | nil => simp [closestIndex]
  | cons t ts =>
    simp only [closestIndex]
    cases hh : wd.hourly with
    | none =>
      exfalso
      rw [hourlyTimes, hh] at hts
      exact List.noConfusion hts
    | some hb =>
      constructor
      · intro hpf
        have hshape := projectFields_error_shape hb _ params [] _ hpf
        exact ApiError.noConfusion hshape
      · intro hcontr
        exact List.noConfusion hcontr

/-- A payload whose JSON has no "hourly" key at all. -/
def noHourlyPayload : Payload := ⟨none⟩

/-- One user owning one city whose cached payload lacks the hourly object. -/
def dbNoHourly : DB :=
  ⟨[(1, "alice")], 2, [⟨1, 1, "Oslo", 0, 0, some noHourlyPayload, none⟩], 2⟩

/-- C7 witness: a payload with no hourly object has an empty timestamp
sequence, and the request indeed fails with NoMatchingSample. -/
theorem no_matching_sample_witness :
    (get_forecast dbNoHourly 1 "Oslo" "08:00" ["temperature"] 0 =
      .error .noMatchingSample) ↔ hourlyTimes noHourlyPayload = [] :=
  no_matching_sample_iff_empty_times dbNoHourly 1 "Oslo" "08:00" ["temperature"] 0
    ⟨1, 1, "Oslo", 0, 0, some noHourlyPayload, none⟩ noHourlyPayload ⟨8, 0⟩
    rfl rfl rfl

/-! ### C8 — result keys: one entry per requested field, request order -/
lemma pyDictInsert_keys (m : List (String × Val)) (k : String) (v : Val) :
    (pyDictInsert m k v).map Prod.fst =
      if k ∈ m.map Prod.fst then m.map Prod.fst else m.map Prod.fst ++ [k] := by
  unfold pyDictInsert
  by_cases hmem : k ∈ m.map Prod.fst
  · have hany : m.any (fun kv => decide (kv.1 = k)) = true := by
      rw [List.any_eq_true]
      obtain ⟨kv, hkv, hfst⟩ := List.mem_map.mp hmem
      exact ⟨kv, hkv, by simp [hfst]⟩
    rw [if_pos hany, if_pos hmem, List.map_map]
    apply List.map_congr_left
    intro kv hkv
    by_cases hk : kv.1 = k
    · simp [Function.comp, hk]
    · simp [Function.comp, hk]
  · have hany : m.any (fun kv => decide (kv.1 = k)) = false := by
      rw [List.any_eq_false]
      intro kv hkv hdec
      rw [decide_eq_true_eq] at hdec
      exact hmem (hdec ▸ List.mem_map_of_mem Prod.fst hkv)
    rw [if_neg (by simp [hany]), if_neg hmem, List.map_append]
    simp

lemma projectFields_ok_keys (h : Hourly) (idx : Nat) :
    ∀ (ps : List String) (acc res : List (String × Val)),
      projectFields h idx ps acc = .ok res →
      res.map Prod.fst = acc.map Prod.fst ++ dedupFirstAux (acc.map Prod.fst) ps := by
  intro ps
  induction ps with
  | nil =>
    intro acc res he
    simp only [projectFields] at he
    have hae : acc = res := Except.ok.inj he
    subst hae
    simp [dedupFirstAux]
  | cons p ps ih =>
    intro acc res he
    simp only [projectFields] at he
    cases hp : projectField h idx p with
    | error e =>
      rw [hp] at he
      exact Except.noConfusion he
    | ok v =>
      rw [hp] at he
      have hrec := ih (pyDictInsert acc p v) res he
      rw [hrec, pyDictInsert_keys]
      by_cases hmem : p ∈ acc.map Prod.fst
      · rw [if_pos hmem]
        simp only [dedupFirstAux, if_pos hmem]
      · rw [if_neg hmem]
        simp only [dedupFirstAux, if_neg hmem]
        rw [List.append_assoc]
        rfl

lemma mem_dedupFirstAux (x : String) :
    ∀ (l seen : List String), x ∈ dedupFirstAux seen l ↔ (x ∈ l ∧ x ∉ seen) := by
  intro l
  induction l with
  | nil =>
    intro seen
    simp [dedupFirstAux]
  | cons p ps ih =>
    intro seen
    by_cases hp : p ∈ seen
    · simp only [dedupFirstAux, if_pos hp, ih]
      constructor
      · rintro ⟨h1, h2⟩
        exact ⟨List.mem_cons_of_mem p h1, h2⟩
      · rintro ⟨h1, h2⟩
        rcases List.mem_cons.mp h1 with h3 | h3
        · subst h3
          exact absurd hp h2
        · exact ⟨h3, h2⟩
    · simp only [dedupFirstAux, if_neg hp, List.mem_cons, ih, List.mem_append,
        List.mem_singleton]
      constructor
      · rintro (h1 | ⟨h1, h2⟩)
        · subst h1
          exact ⟨Or.inl rfl, hp⟩
        · push_neg at h2
          exact ⟨Or.inr h1, h2.1⟩
      · rintro ⟨h1 | h1, h2⟩
        · exact Or.inl h1
        · by_cases hxp : x = p
          · exact Or.inl hxp
          · refine Or.inr ⟨h1, ?_⟩
            push_neg
            exact ⟨h2, hxp, by simp⟩

lemma nodup_dedupFirstAux :
    ∀ (l seen : List String), (dedupFirstAux seen l).Nodup := by
  intro l
  induction l with
  | nil =>
    intro seen
    simp [dedupFirstAux]
  | cons p ps ih =>
    intro seen
    by_cases hp : p ∈ seen
    · simp only [dedupFirstAux, if_pos hp]
      exact ih seen
    · simp only [dedupFirstAux, if_neg hp]
      rw [List.nodup_cons]
      refine ⟨?_, ih _⟩
      rw [mem_dedupFirstAux]
      rintro ⟨h1, h2⟩
      exact h2 (by simp)

/-- C8: a successful forecast request returns one entry per requested field
name, keyed in first-occurrence request order, with no entry for a name that
was not requested. -/
theorem get_forecast_result_keys
    (db : DB) (uid : Nat) (city time : String) (params : List String)
    (today : Nat) (res : List (String × Val))
    (hok : get_forecast db uid city time params today = .ok res) :
    res.map Prod.fst = dedupFirst params ∧
    (res.map Prod.fst).Nodup ∧
    (∀ p, p ∈ res.map Prod.fst ↔ p ∈ params) := by
  cases hf : findCity db.cities uid city with
  | none =>
    simp only [get_forecast, hf] at hok
    exact Except.noConfusion hok
  | some c =>
    cases hw : c.weather_data with
    | none =>
      simp only [get_forecast, hf, hw] at hok
      exact Except.noConfusion hok
    | some wd =>
      cases hp : parseHHMM time with
      | none =>
        simp only [get_forecast, hf, hw, hp] at hok
        exact Except.noConfusion hok
      | some target =>
        cases hc : closestIndex today target (hourlyTimes wd) with
        | none =>
          simp only [get_forecast, hf, hw, hp, hc] at hok
          exact Except.noConfusion hok
        | some idx =>
          cases hh : wd.hourly with
          | none =>
            simp only [get_forecast, hf, hw, hp, hc, hh] at hok
            exact Except.noConfusion hok
          | some hb =>
            simp only [get_forecast, hf, hw, hp, hc, hh] at hok
            have hkeys := projectFields_ok_keys hb idx params [] res hok
            simp only [List.map_nil, List.nil_append] at hkeys
            rw [dedupFirst]
            refine ⟨hkeys, ?_, ?_⟩
            · rw [hkeys]
              exact nodup_dedupFirstAux params []
            · intro p
              rw [hkeys, mem_dedupFirstAux]
              simp

/-- C8 witness: the keys fact at a concrete successful request. -/
theorem get_forecast_result_keys_witness :
    ([("temperature", Val.num 20), ("humidity", Val.null)].map Prod.fst =
      dedupFirst ["temperature", "humidity"]) ∧
    ([("temperature", Val.num 20), ("humidity", Val.null)].map Prod.fst).Nodup ∧
    ("humidity" ∈ [("temperature", Val.num 20), ("humidity", Val.null)].map Prod.fst ↔
      "humidity" ∈ ["temperature", "humidity"]) := by
  have h := get_forecast_result_keys dbOslo 1 "Oslo" "08:00"
    ["temperature", "humidity"] 0
    [("temperature", Val.num 20), ("humidity", Val.null)] (by decide)
  exact ⟨h.1, h.2.1, h.2.2 "humidity"⟩

/-! ### C5 — refresh tick: fetch counting, per-city effects, abort path -/

lemma refreshLoop_no_raise (fetch : Nat → FetchOutcome) (now : Nat) :
    ∀ (rows acc : List City) (k : Nat),
      (∀ r ∈ rows, fetch r.id ≠ .raises) →
      refreshLoop fetch now rows acc k =
        (.ok (acc.map (fun c => rows.foldl (applyRow fetch now) c)),
          k + rows.length) := by
  intro rows
  induction rows with
  | nil =>
    intro acc k _
    simp [refreshLoop]
  | cons row rows ih =>
    intro acc k hno
    cases hf : fetch row.id with
    | raises => exact absurd hf (hno row (List.mem_cons_self row rows))
    | falsy =>
      simp only [refreshLoop, hf]
      rw [ih acc (k + 1) (fun r hr => hno r (List.mem_cons_of_mem row hr))]
      have hmap : acc.map (fun c => rows.foldl (applyRow fetch now) c) =
          acc.map (fun c => (row :: rows).foldl (applyRow fetch now) c) := by
        apply List.map_congr_left
        intro c _
        rw [List.foldl_cons]
        have happ : applyRow fetch now c row = c := by
          unfold applyRow
          rw [hf]
        rw [happ]
      rw [hmap]
      simp only [Prod.mk.injEq, List.length_cons]
      exact ⟨by trivial, by omega⟩
    | truthy wd =>
      simp only [refreshLoop, hf]
      rw [ih (updateCity acc row.id wd now) (k + 1)
        (fun r hr => hno r (List.mem_cons_of_mem row hr))]
      have hmap : (updateCity acc row.id wd now).map
          (fun c => rows.foldl (applyRow fetch now) c) =
          acc.map (fun c => (row :: rows).foldl (applyRow fetch now) c) := by
        unfold updateCity
        rw [List.map_map]
        apply List.map_congr_left
        intro c _
        simp only [Function.comp_apply]
        rw [List.foldl_cons]
        have happ : applyRow fetch now c row =
            (if c.id = row.id then
              { c with weather_data := some wd, last_updated := some now }
            else c) := by
          unfold applyRow
          rw [hf]
        rw [happ]
      rw [hmap]
      simp only [Prod.mk.injEq, List.length_cons]
      exact ⟨by trivial, by omega⟩

lemma refreshLoop_abort (fetch : Nat → FetchOutcome) (now : Nat) (r : City)
    (hr : fetch r.id = .raises) :
    ∀ (l1 l2 acc : List City) (k : Nat),
      (∀ x ∈ l1, fetch x.id ≠ .raises) →
      refreshLoop fetch now (l1 ++ r :: l2) acc k =
        (.error .transportError, k + l1.length + 1) := by
  intro l1
  induction l1 with
  | nil =>
    intro l2 acc k _
    simp only [List.nil_append, refreshLoop, hr, List.length_nil]
  | cons x l1 ih =>
    intro l2 acc k hno
    have hx : fetch x.id ≠ .raises := hno x (List.mem_cons_self x l1)
    cases hf : fetch x.id with
    | raises => exact absurd hf hx
    | falsy =>
      simp only [List.cons_append, refreshLoop, hf, List.append_eq]
      rw [ih l2 acc (k + 1) (fun y hy => hno y (List.mem_cons_of_mem x hy))]
      simp only [Prod.mk.injEq, List.length_cons]
      exact ⟨by trivial, by omega⟩
    | truthy wd =>
      simp only [List.cons_append, refreshLoop, hf, List.append_eq]
      rw [ih l2 (updateCity acc x.id wd now) (k + 1)
        (fun y hy => hno y (List.mem_cons_of_mem x hy))]
      simp only [Prod.mk.injEq, List.length_cons]
      exact ⟨by trivial, by omega⟩

lemma refreshLoop_ok_inversion (fetch : Nat → FetchOutcome) (now : Nat) :
    ∀ (rows acc : List City) (k : Nat) (acc2 : List City) (k2 : Nat),
      refreshLoop fetch now rows acc k = (.ok acc2, k2) →
      acc2 = acc.map (fun c => rows.foldl (applyRow fetch now) c) := by
  intro rows
  induction rows with
  | nil =>
    intro acc k acc2 k2 h
    simp only [refreshLoop, Prod.mk.injEq] at h
    obtain ⟨h1, _⟩ := h
    have hae : acc = acc2 := Except.ok.inj h1
    subst hae
    simp
  | cons row rows ih =>
    intro acc k acc2 k2 h
    cases hf : fetch row.id with
    | raises =>
      simp only [refreshLoop, hf, Prod.mk.injEq] at h
      exact Except.noConfusion h.1
    | falsy =>
      simp only [refreshLoop, hf] at h
      rw [ih acc (k + 1) acc2 k2 h]
      apply List.map_congr_left
      intro c _
      rw [List.foldl_cons]
      have happ : applyRow fetch now c row = c := by
        unfold applyRow
        rw [hf]
      rw [happ]
    | truthy wd =>
      simp only [refreshLoop, hf] at h
      rw [ih (updateCity acc row.id wd now) (k + 1) acc2 k2 h]
      unfold updateCity
      rw [List.map_map]
      apply List.map_congr_left
      intro c _
      simp only [Function.comp_apply]
      rw [List.foldl_cons]
      have happ : applyRow fetch now c row =
          (if c.id = row.id then
            { c with weather_data := some wd, last_updated := some now }
          else c) := by
        unfold applyRow
        rw [hf]
      rw [happ]

lemma foldl_applyRow_id (fetch : Nat → FetchOutcome) (now : Nat) :
    ∀ (rows : List City) (c : City),
      (∀ r ∈ rows, (∀ wd, fetch r.id ≠ .truthy wd) ∨ r.id ≠ c.id) →
      rows.foldl (applyRow fetch now) c = c := by
  intro rows
  induction rows with
  | nil =>
    intro c _
    rfl
  | cons r rows ih =>
    intro c hr
    rw [List.foldl_cons]
    have hstep : applyRow fetch now c r = c := by
      rcases hr r (List.mem_cons_self r rows) with h | h
      · cases hf : fetch r.id with
        | raises =>
          unfold applyRow
          rw [hf]
        | falsy =>
          unfold applyRow
          rw [hf]
        | truthy wd => exact absurd hf (h wd)
      · cases hf : fetch r.id with
        | raises =>
          unfold applyRow
          rw [hf]
        | falsy =>
          unfold applyRow
          rw [hf]
        | truthy wd =>
          simp only [applyRow, hf]
          rw [if_neg (fun hc => h hc.symm)]
    rw [hstep]
    exact ih c (fun r2 h2 => hr r2 (List.mem_cons_of_mem r h2))

lemma foldl_applyRow_unique (fetch : Nat → FetchOutcome) (now : Nat)
    (c : City) (l1 l2 : List City)
    (h1 : ∀ r ∈ l1, r.id ≠ c.id) (h2 : ∀ r ∈ l2, r.id ≠ c.id) :
    (l1 ++ c :: l2).foldl (applyRow fetch now) c =
      (match fetch c.id with
       | .truthy wd => { c with weather_data := some wd, last_updated := some now }
       | _ => c) := by
  rw [List.foldl_append]
  rw [foldl_applyRow_id fetch now l1 c (fun r hr => Or.inr (h1 r hr))]
  rw [List.foldl_cons]
  cases hf : fetch c.id with
  | raises =>
    have hstep : applyRow fetch now c c = c := by
      unfold applyRow
      rw [hf]
    rw [hstep]
    exact foldl_applyRow_id fetch now l2 c (fun r hr => Or.inr (h2 r hr))
  | falsy =>
    have hstep : applyRow fetch now c c = c := by
      unfold applyRow
      rw [hf]
    rw [hstep]
    exact foldl_applyRow_id fetch now l2 c (fun r hr => Or.inr (h2 r hr))
  | truthy wd =>
    have hstep : applyRow fetch now c c =
        { c with weather_data := some wd, last_updated := some now } := by
      simp only [applyRow, hf]
      rw [if_pos trivial]
    rw [hstep]
    exact foldl_applyRow_id fetch now l2 _ (fun r hr => Or.inr (h2 r hr))

/-- First refresh-witness city. -/
def cityOslo5 : City := ⟨1, 1, "Oslo", 0, 0, none, none⟩

/-- Second refresh-witness city. -/
def cityBergen5 : City := ⟨2, 1, "Bergen", 0, 0, none, none⟩

/-- Store with two fresh cities for the refresh witness. -/
def dbC5 : DB := ⟨[(1, "alice")], 2, [cityOslo5, cityBergen5], 3⟩

/-- Upstream outcomes for the clean-tick witness: city 1 returns a truthy
payload, everything else a falsy result. -/
def fetchC5 : Nat → FetchOutcome :=
  fun n => if n = 1 then .truthy samplePayload else .falsy

/-- Upstream outcomes where the very first city's fetch raises. -/
def fetchAbort1 : Nat → FetchOutcome :=
  fun n => if n = 1 then .raises else .truthy samplePayload

/-- Upstream outcomes where the first city succeeds and the second raises. -/
def fetchAbort2 : Nat → FetchOutcome :=
  fun n => if n = 2 then .raises else .truthy samplePayload

/-- C5 counterexample: over the 2-city store, a transport exception at the
first city aborts the tick after a single fetch (not N = 2), and a transport
exception at the second city rolls even the first city's successful update
back — the stored state is unchanged although that city's fetch succeeded. -/
theorem refresh_transport_abort_cex :
    dbC5.cities.length = 2 ∧
    (update_weather_data dbC5 fetchAbort1 99).fetches = 1 ∧
    fetchAbort2 1 = .truthy samplePayload ∧
    (update_weather_data dbC5 fetchAbort2 99).db = dbC5 := by
  decide

/-- C5 (amended): a refresh tick in which no fetch raises issues exactly N
fetches, one per city serially; a city whose fetch returns a truthy payload
has its payload replaced and last_updated set to the current time, and a
city whose fetch returns a falsy result (non-200, or a falsy 200 body) is
left unchanged while the cycle proceeds.  If a fetch raises a transport
exception, the tick aborts there: only the cities up to and including that
one were fetched, and the skipped commit rolls back every update of the
tick, leaving the stored state unchanged. -/
theorem update_weather_data_tick_spec (db : DB) (fetch : Nat → FetchOutcome)
    (now : Nat) (hids : (db.cities.map City.id).Nodup) :
    ((∀ c ∈ db.cities, fetch c.id ≠ .raises) →
      (update_weather_data db fetch now).fetches = db.cities.length ∧
      (update_weather_data db fetch now).raised = none ∧
      (update_weather_data db fetch now).db.users = db.users ∧
      (update_weather_data db fetch now).db.cities = db.cities.map (fun c =>
        match fetch c.id with
        | .truthy wd => { c with weather_data := some wd, last_updated := some now }
        | _ => c)) ∧
    (∀ (l1 : List City) (r : City) (l2 : List City),
      db.cities = l1 ++ r :: l2 →
      (∀ x ∈ l1, fetch x.id ≠ .raises) →
      fetch r.id = .raises →
      (update_weather_data db fetch now).fetches = l1.length + 1 ∧
      (update_weather_data db fetch now).raised = some .transportError ∧
      (update_weather_data db fetch now).db = db) := by
  constructor
  · intro hno
    have hloop := refreshLoop_no_raise fetch now db.cities db.cities 0 hno
    have hupd : update_weather_data db fetch now =
        ⟨{ db with cities := (db.cities.map
            (fun c => db.cities.foldl (applyRow fetch now) c)) },
          none, 0 + db.cities.length⟩ := by
      unfold update_weather_data
      rw [hloop]
    refine ⟨by rw [hupd]; simp, by rw [hupd], by rw [hupd], ?_⟩
    rw [hupd]
    apply List.map_congr_left
    intro c hc
    obtain ⟨l1, l2, hsplit⟩ := List.append_of_mem hc
    rw [hsplit] at hids ⊢
    rw [List.map_append, List.nodup_append] at hids
    obtain ⟨hn1, hn2, hdisj⟩ := hids
    rw [List.map_cons, List.nodup_cons] at hn2
    obtain ⟨hcid, _⟩ := hn2
    have h1 : ∀ r ∈ l1, r.id ≠ c.id := by
      intro r hr heq
      apply hdisj (List.mem_map_of_mem City.id hr)
      rw [heq]
      exact List.mem_map_of_mem City.id (List.mem_cons_self c l2)
    have h2 : ∀ r ∈ l2, r.id ≠ c.id := by
      intro r hr heq
      apply hcid
      rw [← heq]
      exact List.mem_map_of_mem City.id hr
    exact foldl_applyRow_unique fetch now c l1 l2 h1 h2
  · intro l1 r l2 hsplit hno hr
    have hloop : refreshLoop fetch now db.cities db.cities 0 =
        (.error .transportError, 0 + l1.length + 1) := by
      rw [hsplit]
      exact refreshLoop_abort fetch now r hr l1 l2 (l1 ++ r :: l2) 0 hno
    have hupd : update_weather_data db fetch now =
        ⟨db, some .transportError, 0 + l1.length + 1⟩ := by
      unfold update_weather_data
      rw [hloop]
    refine ⟨by rw [hupd]; simp, by rw [hupd], by rw [hupd]⟩

/-- C5 witness: the amended statement at the 2-city store — a clean tick
(city 1 truthy, city 2 falsy) issues 2 fetches and updates only city 1; an
aborting tick (city 1 truthy, city 2 raises) issues 2 fetches, surfaces the
exception, and leaves the stored state unchanged. -/
theorem update_weather_data_tick_witness :
    ((update_weather_data dbC5 fetchC5 99).fetches = dbC5.cities.length ∧
     (update_weather_data dbC5 fetchC5 99).raised = none ∧
     (update_weather_data dbC5 fetchC5 99).db.users = dbC5.users ∧
     (update_weather_data dbC5 fetchC5 99).db.cities = dbC5.cities.map (fun c =>
        match fetchC5 c.id with
        | .truthy wd => { c with weather_data := some wd, last_updated := some 99 }
        | _ => c)) ∧
    ((update_weather_data dbC5 fetchAbort2 99).fetches = [cityOslo5].length + 1 ∧
     (update_weather_data dbC5 fetchAbort2 99).raised = some .transportError ∧
     (update_weather_data dbC5 fetchAbort2 99).db = dbC5) := by
  constructor
  · exact (update_weather_data_tick_spec dbC5 fetchC5 99 (by decide)).1 (by decide)
  · exact (update_weather_data_tick_spec dbC5 fetchAbort2 99 (by decide)).2
      [cityOslo5] cityBergen5 [] rfl (by decide) (by decide)

/-! ### C10 — fresh city has no forecast data until a refresh succeeds -/

lemma applyRow_preserves (fetch : Nat → FetchOutcome) (now : Nat)
    (c row : City) :
    (applyRow fetch now c row).id = c.id ∧
    (applyRow fetch now c row).user_id = c.user_id ∧
    (applyRow fetch now c row).name = c.name := by
  unfold applyRow
  cases fetch row.id with
  | raises => exact ⟨rfl, rfl, rfl⟩
  | falsy => exact ⟨rfl, rfl, rfl⟩
  | truthy wd => by_cases h : c.id = row.id <;> simp [h]

lemma foldl_applyRow_preserves (fetch : Nat → FetchOutcome) (now : Nat) :
    ∀ (rows : List City) (c : City),
      (rows.foldl (applyRow fetch now) c).id = c.id ∧
      (rows.foldl (applyRow fetch now) c).user_id = c.user_id ∧
      (rows.foldl (applyRow fetch now) c).name = c.name := by
  intro rows
  induction rows with
  | nil =>
    intro c
    exact ⟨rfl, rfl, rfl⟩
  | cons r rows ih =>
    intro c
    rw [List.foldl_cons]
    obtain ⟨ha, hb, hc2⟩ := ih (applyRow fetch now c r)
    obtain ⟨h1, h2, h3⟩ := applyRow_preserves fetch now c r
    exact ⟨ha.trans h1, hb.trans h2, hc2.trans h3⟩

/-- The row `add_city` INSERTs: fresh autoincrement id, NULL payload, NULL
last_updated. -/
def newCity (db : DB) (uid : Nat) (name : String) (lat lon : Int) : City :=
  ⟨db.nextCityId, uid, name, lat, lon, none, none⟩

lemma find?_newCity (db : DB) (uid : Nat) (name : String) (lat lon : Int)
    (hc : ∀ c ∈ db.cities, ¬ (c.user_id = uid ∧ c.name = name)) :
    (db.cities ++ [newCity db uid name lat lon]).find?
      (fun c => decide (c.user_id = uid ∧ c.name = name)) =
      some (newCity db uid name lat lon) := by
  rw [List.find?_append]
  have hnone : db.cities.find?
      (fun c => decide (c.user_id = uid ∧ c.name = name)) = none := by
    rw [List.find?_eq_none]
    intro x hx
    simp only [decide_eq_true_eq]
    exact hc x hx
  rw [hnone, Option.none_or]
  simp [List.find?, newCity]

/-- C10: right after a successful AddCity of a name the user did not yet
have, the stored city has no cached payload and no last_updated, every
GetForecast resolving to it fails with NoForecastData whatever the time and
field arguments, and a refresh tick whose fetch for this city does not
produce a truthy payload — a falsy result, a transport exception anywhere in
the tick, no fetch at all because an earlier city aborted the tick — leaves
that situation unchanged. -/
theorem add_city_fresh_no_forecast (db : DB) (uid : Nat) (name : String)
    (lat lon : Int)
    (hu : db.users.any (fun u => decide (u.1 = uid)) = true)
    (hc : ∀ c ∈ db.cities, ¬ (c.user_id = uid ∧ c.name = name))
    (hid : ∀ c ∈ db.cities, c.id < db.nextCityId) :
    ∃ db2 : DB, add_city db uid name lat lon = .ok db2 ∧
      findCity db2.cities uid name = some (newCity db uid name lat lon) ∧
      (newCity db uid name lat lon).weather_data = none ∧
      (newCity db uid name lat lon).last_updated = none ∧
      (∀ (time : String) (params : List String) (today : Nat),
        get_forecast db2 uid name time params today = .error .noForecastData) ∧
      (∀ (fetch : Nat → FetchOutcome) (now : Nat),
        (∀ wd, fetch db.nextCityId ≠ .truthy wd) →
        ∀ (time : String) (params : List String) (today : Nat),
          get_forecast (update_weather_data db2 fetch now).db uid name time
            params today = .error .noForecastData) := by
  refine ⟨{ db with
      cities := db.cities ++ [newCity db uid name lat lon],
      nextCityId := db.nextCityId + 1 }, ?_, ?_, rfl, rfl, ?_, ?_⟩
  · unfold add_city
    rw [if_pos hu]
    rfl
  · unfold findCity
    exact find?_newCity db uid name lat lon hc
  · intro time params today
    have hfind : findCity (db.cities ++ [newCity db uid name lat lon]) uid name =
        some (newCity db uid name lat lon) := find?_newCity db uid name lat lon hc
    simp only [get_forecast]
    rw [hfind]
    rfl
  · intro fetch now hfetch time params today
    rcases hloop : refreshLoop fetch now
        (db.cities ++ [newCity db uid name lat lon])
        (db.cities ++ [newCity db uid name lat lon]) 0 with ⟨res, k⟩
    cases res with
    | error e =>
      have hdb : (update_weather_data { db with
          cities := db.cities ++ [newCity db uid name lat lon],
          nextCityId := db.nextCityId + 1 } fetch now).db =
          { db with
            cities := db.cities ++ [newCity db uid name lat lon],
            nextCityId := db.nextCityId + 1 } := by
        unfold update_weather_data
        rw [hloop]
      rw [hdb]
      have hfind : findCity (db.cities ++ [newCity db uid name lat lon]) uid
          name = some (newCity db uid name lat lon) :=
        find?_newCity db uid name lat lon hc
      simp only [get_forecast]
      rw [hfind]
      rfl
    | ok cities2 =>
      have hc2 := refreshLoop_ok_inversion fetch now
        (db.cities ++ [newCity db uid name lat lon])
        (db.cities ++ [newCity db uid name lat lon]) 0 cities2 k hloop
      have hpred : (fun c : City => decide (c.user_id = uid ∧ c.name = name)) ∘
          (fun c => (db.cities ++ [newCity db uid name lat lon]).foldl
            (applyRow fetch now) c) =
          (fun c : City => decide (c.user_id = uid ∧ c.name = name)) := by
        funext c
        obtain ⟨h1, h2, h3⟩ := foldl_applyRow_preserves fetch now
          (db.cities ++ [newCity db uid name lat lon]) c
        show decide
            ((List.foldl (applyRow fetch now) c
              (db.cities ++ [newCity db uid name lat lon])).user_id = uid ∧
            (List.foldl (applyRow fetch now) c
              (db.cities ++ [newCity db uid name lat lon])).name = name) =
          decide (c.user_id = uid ∧ c.name = name)
        rw [h2, h3]
      have hFnew : (db.cities ++ [newCity db uid name lat lon]).foldl
          (applyRow fetch now) (newCity db uid name lat lon) =
          newCity db uid name lat lon := by
        apply foldl_applyRow_id
        intro r hr
        rcases List.mem_append.mp hr with h | h
        · exact Or.inr (Nat.ne_of_lt (hid r h))
        · rw [List.mem_singleton] at h
          subst h
          exact Or.inl hfetch
      have hdb : (update_weather_data { db with
          cities := db.cities ++ [newCity db uid name lat lon],
          nextCityId := db.nextCityId + 1 } fetch now).db.cities = cities2 := by
        unfold update_weather_data
        rw [hloop]
      have hfind3 : findCity (update_weather_data { db with
          cities := db.cities ++ [newCity db uid name lat lon],
          nextCityId := db.nextCityId + 1 } fetch now).db.cities uid name =
          some (newCity db uid name lat lon) := by
        rw [hdb, hc2]
        unfold findCity
        rw [List.find?_map, hpred, find?_newCity db uid name lat lon hc]
        show some ((db.cities ++ [newCity db uid name lat lon]).foldl
          (applyRow fetch now) (newCity db uid name lat lon)) =
          some (newCity db uid name lat lon)
        rw [hFnew]
      simp only [get_forecast]
      rw [hfind3]
      rfl

/-- C10 witness: adding "Paris" for user 1 to a store with no cities yields
a city with no payload; forecasts fail with NoForecastData, also after a
refresh tick whose fetch outcome for it is not a truthy payload. -/
theorem add_city_fresh_no_forecast_witness :
    ∃ db2 : DB, add_city dbNoCity 1 "Paris" 5 6 = .ok db2 ∧
      findCity db2.cities 1 "Paris" = some (newCity dbNoCity 1 "Paris" 5 6) ∧
      (newCity dbNoCity 1 "Paris" 5 6).weather_data = none ∧
      (newCity dbNoCity 1 "Paris" 5 6).last_updated = none ∧
      (∀ (time : String) (params : List String) (today : Nat),
        get_forecast db2 1 "Paris" time params today = .error .noForecastData) ∧
      (∀ (fetch : Nat → FetchOutcome) (now : Nat),
        (∀ wd, fetch dbNoCity.nextCityId ≠ .truthy wd) →
        ∀ (time : String) (params : List String) (today : Nat),
          get_forecast (update_weather_data db2 fetch now).db 1 "Paris" time
            params today = .error .noForecastData) :=
  add_city_fresh_no_forecast dbNoCity 1 "Paris" 5 6 (by decide)
    (by intro c hcm; simp [dbNoCity] at hcm)
    (by intro c hcm; simp [dbNoCity] at hcm)
